import Mathlib

/-!
# Verification of the `LLMRouter` (llm_switcher.py)

A shallow embedding of the tiered model-selection and batch-dispatch router
from `src/backup/deprecated-files/python/llm_switcher.py`, together with
theorems settling the specification claims about it.

Conventions of the embedding:
* Python `float` cost values are embedded as exact rationals (`ℚ`); all the
  catalog constants are short decimal literals, so this is exact.
* Python's `sorted(key=..., [reverse=True])` is a stable sort by the key.
  We embed it as `List.insertionSort` with the non-strict key comparison
  (ties compare `true`, so an element is inserted before the elements equal
  to it that came later), which is also stable and hence extensionally equal
  to Python's sort for every input list.
* Network effects are embedded by passing the outcome of the single HTTP
  exchange (`HttpOutcome`) as an explicit argument, and `json.loads`
  success is an oracle `jsonOk : String → Bool`.
-/

namespace LLMSwitcher

/-- Embeds `class UserTier(Enum)` (llm_switcher.py lines 17-20). -/
inductive UserTier where
  | free
  | pro
  | premium
deriving DecidableEq, Repr

/-- Embeds `class AIOperation(Enum)` (llm_switcher.py lines 22-26). -/
inductive AIOperation where
  | categorize
  | summarize
  | extract_insights
  | generate_tags
deriving DecidableEq, Repr

/-- Embeds `@dataclass class ModelConfig` (llm_switcher.py lines 28-34). -/
structure ModelConfig where
  name : String
  cost_per_token : ℚ
  max_tokens : ℕ
  api_endpoint : String
  supports_json : Bool := true
deriving DecidableEq, Repr

/-- The single endpoint used by every catalog entry. -/
def openrouter_endpoint : String := "https://openrouter.ai/api/v1/chat/completions"

/-- Catalog entry (llm_switcher.py lines 55-60). -/
def claude3_haiku : ModelConfig :=
  { name := "anthropic/claude-3-haiku"
    cost_per_token := 0.00000025
    max_tokens := 4000
    api_endpoint := openrouter_endpoint }

/-- Catalog entry (llm_switcher.py lines 61-66). -/
def gpt35_turbo : ModelConfig :=
  { name := "openai/gpt-3.5-turbo"
    cost_per_token := 0.000002
    max_tokens := 4000
    api_endpoint := openrouter_endpoint }

/-- Catalog entry (llm_switcher.py lines 69-74). -/
def claude3_sonnet : ModelConfig :=
  { name := "anthropic/claude-3-sonnet"
    cost_per_token := 0.000015
    max_tokens := 4000
    api_endpoint := openrouter_endpoint }

/-- Catalog entry (llm_switcher.py lines 75-80). -/
def gpt4 : ModelConfig :=
  { name := "openai/gpt-4"
    cost_per_token := 0.00003
    max_tokens := 8000
    api_endpoint := openrouter_endpoint }

/-- Catalog entry (llm_switcher.py lines 89-94). -/
def claude3_opus : ModelConfig :=
  { name := "anthropic/claude-3-opus"
    cost_per_token := 0.000075
    max_tokens := 4000
    api_endpoint := openrouter_endpoint }

/-- Embeds `LLMRouter._initialize_models` (llm_switcher.py lines 51-108), the static,
tier-keyed model catalog.  It is a constant of the embedding, mirroring that
the Python dict is created once in `__init__` and never written afterwards. -/
def modelsFor : UserTier → List ModelConfig
  | .free => [claude3_haiku, gpt35_turbo]
  | .pro => [claude3_sonnet, gpt4, gpt35_turbo]
  | .premium => [claude3_opus, gpt4, claude3_sonnet]

/-- Embeds `estimated_tokens = min(content_length * 2, 500)` (llm_switcher.py line 128). -/
def estimated_tokens (content_length : ℕ) : ℕ := min (content_length * 2) 500

/-- Key order used for `sorted(available_models, key=lambda m: m.cost_per_token)`. -/
def costLE (a b : ModelConfig) : Prop := a.cost_per_token ≤ b.cost_per_token

/-- Key order used for `sorted(..., key=..., reverse=True)`. -/
def costGE (a b : ModelConfig) : Prop := b.cost_per_token ≤ a.cost_per_token

instance : DecidableRel costLE := fun a b =>
  inferInstanceAs (Decidable (a.cost_per_token ≤ b.cost_per_token))

instance : DecidableRel costGE := fun a b =>
  inferInstanceAs (Decidable (b.cost_per_token ≤ a.cost_per_token))

instance : IsTotal ModelConfig costLE := ⟨fun a b => le_total a.cost_per_token b.cost_per_token⟩

instance : IsTrans ModelConfig costLE := ⟨fun _ _ _ h h' => le_trans h h'⟩

instance : IsTotal ModelConfig costGE := ⟨fun a b => le_total b.cost_per_token a.cost_per_token⟩

instance : IsTrans ModelConfig costGE := ⟨fun _ _ _ h h' => le_trans h' h⟩

/-- The reorder step of `select_optimal_model` (llm_switcher.py lines 116-124):
ascending stable sort by cost for `CATEGORIZE`/`GENERATE_TAGS`, descending
stable sort by cost for `EXTRACT_INSIGHTS`/`SUMMARIZE`.  The `AIOperation`
enum is closed, so the two membership tests cover every operation. -/
def sort_for_operation (operation : AIOperation) (ms : List ModelConfig) : List ModelConfig :=
  match operation with
  | .categorize | .generate_tags => List.insertionSort costLE ms
  | .extract_insights | .summarize => List.insertionSort costGE ms

/-- Budget filter predicate (llm_switcher.py lines 129-130):
`m.cost_per_token * estimated_tokens <= budget_constraint`. -/
def within_budget (content_length : ℕ) (b : ℚ) (m : ModelConfig) : Bool :=
  m.cost_per_token * (estimated_tokens content_length : ℚ) ≤ b

/-- Content-length filter predicate (llm_switcher.py line 133):
`m.max_tokens >= content_length`. -/
def can_handle (content_length : ℕ) (m : ModelConfig) : Bool :=
  content_length ≤ m.max_tokens

/-- The value of `available_models` after the sort and the two filters of
`select_optimal_model` (llm_switcher.py lines 114-133).  Note the budget guard
`if budget_constraint:` tests Python truthiness: the filter runs only when a
budget is present *and* non-zero (`0.0` is falsy). -/
def eligible_models (content_length : ℕ) (user_tier : UserTier) (operation : AIOperation)
    (budget_constraint : Option ℚ) : List ModelConfig :=
  let sorted := sort_for_operation operation (modelsFor user_tier)
  let afterBudget :=
    match budget_constraint with
    | some b => if b ≠ 0 then sorted.filter (within_budget content_length b) else sorted
    | none => sorted
  afterBudget.filter (can_handle content_length)

/-- Embeds Python `min(iterable, key=...)`: fold keeping the current best, replacing it only
on a strictly smaller key, so the *first* minimum wins (Python `min`). -/
def minByCostAux : ModelConfig → List ModelConfig → ModelConfig
  | best, [] => best
  | best, m :: rest => minByCostAux (if m.cost_per_token < best.cost_per_token then m else best) rest

/-- Embeds `min(self.models[user_tier], key=lambda m: m.cost_per_token)`
(llm_switcher.py line 137).  The `[]` branch is unreachable because every
tier's catalog list is non-empty (Python's `min` would raise there). -/
def fallback_cheapest (user_tier : UserTier) : ModelConfig :=
  match modelsFor user_tier with
  | [] => { name := "", cost_per_token := 0, max_tokens := 0, api_endpoint := "" }
  | m :: rest => minByCostAux m rest

/-- Embeds `LLMRouter.select_optimal_model` (llm_switcher.py lines 110-139). -/
def select_optimal_model (content_length : ℕ) (user_tier : UserTier) (operation : AIOperation)
    (budget_constraint : Option ℚ) : ModelConfig :=
  match eligible_models content_length user_tier operation budget_constraint with
  | [] => fallback_cheapest user_tier
  | m :: _ => m

/-- The payload dict stored in `ProcessingResult.result`
(llm_switcher.py lines 251-259).  A `jsonValue raw` is the dict obtained by a
successful `json.loads(raw)`; a `textWrap raw` is the dict `{"text": raw}`. -/
inductive ResultPayload where
  | jsonValue (raw : String)
  | textWrap (raw : String)
deriving DecidableEq, Repr

/-- Embeds `@dataclass class ProcessingResult` (llm_switcher.py lines 36-43). -/
structure ProcessingResult where
  success : Bool
  result : Option ResultPayload := none
  error : Option String := none
  model_used : Option String := none
  tokens_used : Option ℕ := none
  cost : Option ℚ := none
deriving DecidableEq, Repr

/-- The JSON body of a completed HTTP exchange, projected to the fields the
router reads: `choices[i]["message"]["content"]` (one string per choice, with
`none` when the `"choices"` key is absent) and `usage.total_tokens` (`none`
when `"usage"` or `"total_tokens"` is absent); `text` is the raw body text
used in the non-200 error message. -/
structure ApiResponse where
  status : ℕ
  text : String
  choices : Option (List String)
  usage_total_tokens : Option ℕ
deriving DecidableEq, Repr

/-- Outcome of the single outbound HTTP exchange in `process_content`:
either the request raised (`exc msg`, where `msg` is `str(e)`), or a response
came back. -/
inductive HttpOutcome where
  | exc (msg : String)
  | response (resp : ApiResponse)
deriving DecidableEq, Repr

/-- The operations whose responses are parsed as JSON
(llm_switcher.py line 252): `CATEGORIZE`, `EXTRACT_INSIGHTS`, `GENERATE_TAGS`. -/
def is_structured : AIOperation → Bool
  | .categorize => true
  | .extract_insights => true
  | .generate_tags => true
  | .summarize => false

/-- Embeds `LLMRouter.process_content` (llm_switcher.py lines 192-274), shallowly
embedded: the HTTP exchange's outcome is the explicit argument `outcome`, and
`jsonOk raw` tells whether `json.loads(raw)` succeeds.  Model selection
happens before the request, so on an exception during the request the `model`
local is bound and the error result carries `model.name`. -/
def process_content (jsonOk : String → Bool) (content : String) (operation : AIOperation)
    (user_tier : UserTier) (budget_constraint : Option ℚ) (outcome : HttpOutcome) :
    ProcessingResult :=
  let model := select_optimal_model content.length user_tier operation budget_constraint
  match outcome with
  | .exc msg => { success := false, error := some msg, model_used := some model.name }
  | .response resp =>
    if resp.status ≠ 200 then
      { success := false
        error := some ("API request failed with status " ++ toString resp.status ++ ": " ++ resp.text)
        model_used := some model.name }
    else
      match resp.choices with
      | none =>
        { success := false, error := some "No response from model", model_used := some model.name }
      | some [] =>
        { success := false, error := some "No response from model", model_used := some model.name }
      | some (result_text :: _) =>
        let tokens_used := resp.usage_total_tokens.getD 0
        let cost : ℚ := (tokens_used : ℚ) * model.cost_per_token
        let result :=
          if is_structured operation then
            if jsonOk result_text then ResultPayload.jsonValue result_text
            else ResultPayload.textWrap result_text
          else ResultPayload.textWrap result_text
        { success := true
          result := some result
          model_used := some model.name
          tokens_used := some tokens_used
          cost := some cost }

/-- What `asyncio.gather(*batch_tasks, return_exceptions=True)` hands back for
one item: either its `process_content` coroutine completed (with the given
HTTP outcome), or the task raised and `gather` captured the exception. -/
inductive TaskOutcome where
  | completed (outcome : HttpOutcome)
  | raised (msg : String)

/-- How `process_batch` turns one gathered item into a `ProcessingResult`
(llm_switcher.py lines 295-302): a completed task's result is appended as-is,
a captured exception becomes `ProcessingResult(success=False, error=str(e))`. -/
def settle_task (jsonOk : String → Bool) (operation : AIOperation) (user_tier : UserTier)
    (budget_constraint : Option ℚ) (content : String) : TaskOutcome → ProcessingResult
  | .completed outcome => process_content jsonOk content operation user_tier budget_constraint outcome
  | .raised msg => { success := false, error := some msg }

/-- Embeds `batch_size = 5 if user_tier == UserTier.FREE else 20`
(llm_switcher.py line 282). -/
def batch_size (user_tier : UserTier) : ℕ :=
  if user_tier = .free then 5 else 20

/-- Observable scheduling events of the `process_batch` loop: dispatching one
chunk (the slice `contents[i:i+batch_size]`) and the inter-chunk
`asyncio.sleep(2)`. -/
inductive BatchEvent where
  | dispatch (batch : List String)
  | pause (units : ℕ)
deriving DecidableEq, Repr

/-- The `for i in range(0, len(contents), batch_size)` loop of
`LLMRouter.process_batch` (llm_switcher.py lines 284-306), over the remaining
suffix `l` of the input (item at absolute position `idx + j` is `l[j]`).
Each iteration maps `f` over the chunk `l[:batch_size]` (the gathered batch
results, in order), and records the dispatch plus the `sleep(2)` that runs
when `i + batch_size < len(contents)`, i.e. when more items remain.  The
`bs = 0` guard is only for termination: `range` with step 0 raises in Python
and `process_batch` always passes 5 or 20. -/
def process_batch_core (f : ℕ → String → ProcessingResult) (bs : ℕ) (idx : ℕ)
    (l : List String) : List ProcessingResult × List BatchEvent :=
  if h : l = [] ∨ bs = 0 then ([], [])
  else
    let rest := process_batch_core f bs (idx + bs) (l.drop bs)
    ((List.enumFrom idx (l.take bs)).map (fun p => f p.1 p.2) ++ rest.1,
     BatchEvent.dispatch (l.take bs) ::
       (if bs < l.length then BatchEvent.pause 2 :: rest.2 else rest.2))
termination_by l.length
decreasing_by
  push_neg at h
  simp only [List.length_drop]
  exact Nat.sub_lt (List.length_pos.mpr h.1) (Nat.pos_of_ne_zero h.2)

/-- Embeds `LLMRouter.process_batch` (llm_switcher.py lines 276-308): the results
component of the loop.  `env i` is the gathered outcome of the task for the
item at position `i`. -/
def process_batch (jsonOk : String → Bool) (contents : List String) (operation : AIOperation)
    (user_tier : UserTier) (budget_constraint : Option ℚ) (env : ℕ → TaskOutcome) :
    List ProcessingResult :=
  (process_batch_core
    (fun i c => settle_task jsonOk operation user_tier budget_constraint c (env i))
    (batch_size user_tier) 0 contents).1

/-- The consecutive partition of a list into chunks of size `bs`
(`contents[i:i+batch_size]` for `i in range(0, len(contents), batch_size)`). -/
def chunkList (bs : ℕ) (l : List String) : List (List String) :=
  if h : l = [] ∨ bs = 0 then []
  else l.take bs :: chunkList bs (l.drop bs)
termination_by l.length
decreasing_by
  push_neg at h
  simp only [List.length_drop]
  exact Nat.sub_lt (List.length_pos.mpr h.1) (Nat.pos_of_ne_zero h.2)

/-- The schedule of observable batch events of `LLMRouter.process_batch`
(llm_switcher.py lines 284-306): the events component of the same loop whose
results component is `process_batch`. -/
def process_batch_events (jsonOk : String → Bool) (contents : List String)
    (operation : AIOperation) (user_tier : UserTier) (budget_constraint : Option ℚ)
    (env : ℕ → TaskOutcome) : List BatchEvent :=
  (process_batch_core
    (fun i c => settle_task jsonOk operation user_tier budget_constraint c (env i))
    (batch_size user_tier) 0 contents).2

/-- A concrete batch of 12 content items, for the free-tier chunking scenario. -/
def twelve_items : List String :=
  ["t01", "t02", "t03", "t04", "t05", "t06", "t07", "t08", "t09", "t10", "t11", "t12"]

/-- The in-protocol failure conditions of `process_content`: a non-200 HTTP
status, or a response body with a missing or empty `choices` list, or an
exception raised during the request. -/
def failed_exchange : HttpOutcome → Prop
  | .exc _ => True
  | .response resp => resp.status ≠ 200 ∨ resp.choices = none ∨ resp.choices = some []

/-! ## Helper lemmas about the selection pipeline -/

theorem minByCostAux_mem : ∀ (l : List ModelConfig) (best : ModelConfig),
    minByCostAux best l ∈ best :: l := by
  intro l
  induction l with
  | nil => intro best; simp [minByCostAux]
  | cons m rest ih =>
    intro best
    have h := ih (if m.cost_per_token < best.cost_per_token then m else best)
    rw [minByCostAux]
    rcases List.mem_cons.mp h with h' | h'
    · rw [h']
      split <;> simp
    · simp [h']

theorem minByCostAux_le : ∀ (l : List ModelConfig) (best x : ModelConfig), x ∈ best :: l →
    (minByCostAux best l).cost_per_token ≤ x.cost_per_token := by
  intro l
  induction l with
  | nil =>
    intro best x hx
    simp at hx
    simp [minByCostAux, hx]
  | cons m rest ih =>
    intro best x hx
    rw [minByCostAux]
    have hble : (if m.cost_per_token < best.cost_per_token then m else best).cost_per_token ≤
        best.cost_per_token := by
      split
      · exact le_of_lt (by assumption)
      · exact le_refl _
    have hmle : (if m.cost_per_token < best.cost_per_token then m else best).cost_per_token ≤
        m.cost_per_token := by
      split
      · exact le_refl _
      · exact le_of_not_lt (by assumption)
    have hself := ih (if m.cost_per_token < best.cost_per_token then m else best)
      (if m.cost_per_token < best.cost_per_token then m else best) (List.mem_cons_self _ _)
    rcases List.mem_cons.mp hx with h' | h'
    · subst h'
      exact le_trans hself hble
    · rcases List.mem_cons.mp h' with h'' | h''
      · subst h''
        exact le_trans hself hmle
      · exact ih _ x (List.mem_cons_of_mem _ h'')

theorem mem_sort_for_operation {x : ModelConfig} {op : AIOperation} {ms : List ModelConfig} :
    x ∈ sort_for_operation op ms ↔ x ∈ ms := by
  cases op <;>
    simp only [sort_for_operation] <;>
    exact (List.perm_insertionSort _ _).mem_iff

theorem mem_of_mem_eligible {x : ModelConfig} {len : ℕ} {tier : UserTier} {op : AIOperation}
    {budget : Option ℚ} (h : x ∈ eligible_models len tier op budget) :
    x ∈ modelsFor tier := by
  unfold eligible_models at h
  have h1 := (List.mem_filter.mp h).1
  rcases budget with _ | b
  · exact mem_sort_for_operation.mp h1
  · simp only at h1
    split at h1
    · exact mem_sort_for_operation.mp (List.mem_filter.mp h1).1
    · exact mem_sort_for_operation.mp h1

theorem eligible_models_pairwise {R : ModelConfig → ModelConfig → Prop} {len : ℕ}
    {tier : UserTier} {op : AIOperation} {budget : Option ℚ}
    (h : List.Pairwise R (sort_for_operation op (modelsFor tier))) :
    List.Pairwise R (eligible_models len tier op budget) := by
  unfold eligible_models
  rcases budget with _ | b
  · exact List.Pairwise.sublist (List.filter_sublist _) h
  · simp only
    split
    · exact List.Pairwise.sublist ((List.filter_sublist _).trans (List.filter_sublist _)) h
    · exact List.Pairwise.sublist (List.filter_sublist _) h

theorem pairwise_head_rel {R : ModelConfig → ModelConfig → Prop} (hrefl : ∀ a, R a a)
    {x : ModelConfig} {xs : List ModelConfig} (h : List.Pairwise R (x :: xs)) :
    ∀ m ∈ x :: xs, R x m := by
  intro m hm
  rcases List.mem_cons.mp hm with h' | h'
  · exact h' ▸ hrefl x
  · exact List.rel_of_pairwise_cons h h'

theorem catalog_costs_distinct (tier : UserTier) :
    List.Pairwise (fun a b : ModelConfig => a.cost_per_token ≠ b.cost_per_token)
      (modelsFor tier) := by
  cases tier <;>
    norm_num [modelsFor, claude3_haiku, gpt35_turbo, claude3_sonnet, gpt4, claude3_opus]

/-! ## Claims about model selection -/

/-- C7: `select_optimal_model` is total — for every content length, tier,
operation and optional budget it returns exactly one `ModelConfig`, and that
descriptor belongs to the tier's catalog list.  (Totality is inherent in the
embedding being a Lean function; membership is the proved content.) -/
theorem select_optimal_model_mem_catalog (len : ℕ) (tier : UserTier) (op : AIOperation)
    (budget : Option ℚ) :
    select_optimal_model len tier op budget ∈ modelsFor tier := by
  unfold select_optimal_model
  cases heq : eligible_models len tier op budget with
  | nil =>
    cases tier <;> exact minByCostAux_mem _ _
  | cons m ms =>
    exact mem_of_mem_eligible (heq ▸ List.mem_cons_self m ms)

/-- C8: for every tier, the static catalog is a non-empty list in which every
descriptor has strictly positive `cost_per_token` and strictly positive
`max_tokens`.  (The catalog is a constant of the embedding: `modelsFor`
is a closed function of the tier alone, which no router operation can mutate.) -/
theorem catalog_nonempty_positive (tier : UserTier) :
    modelsFor tier ≠ [] ∧
    ∀ m ∈ modelsFor tier, 0 < m.cost_per_token ∧ 0 < m.max_tokens := by
  cases tier <;>
    refine ⟨by simp [modelsFor], ?_⟩ <;>
    · intro m hm
      fin_cases hm <;>
        norm_num [claude3_haiku, gpt35_turbo, claude3_sonnet, gpt4, claude3_opus]

/-- Witness for C8 at `free` tier and its first catalog entry. -/
theorem catalog_nonempty_positive_witness :
    modelsFor UserTier.free ≠ [] ∧
    0 < claude3_haiku.cost_per_token ∧ 0 < claude3_haiku.max_tokens :=
  ⟨(catalog_nonempty_positive UserTier.free).1,
   (catalog_nonempty_positive UserTier.free).2 claude3_haiku (List.mem_cons_self _ _)⟩

/-- C9: a supplied budget of `0` behaves exactly like no budget: the guard
`if budget_constraint:` tests Python truthiness, and `0.0` is falsy, so the
budget filter is skipped entirely. -/
theorem budget_zero_like_none (len : ℕ) (tier : UserTier) (op : AIOperation) :
    select_optimal_model len tier op (some 0) = select_optimal_model len tier op none := by
  unfold select_optimal_model eligible_models
  simp

/-- C1 (counterexample): the claim fails when the supplied budget ceiling is
`0.0`.  At `content_length = 1`, tier `free`, operation `summarize`,
budget `0`: no catalog descriptor satisfies
`cost_per_token * min(2*1, 500) <= 0`, yet selection does **not** fall back to
the tier's cheapest descriptor — Python's `if budget_constraint:` treats the
supplied `0.0` as falsy, skips the budget filter, and the descending sort
makes selection return `gpt-3.5-turbo` although `claude-3-haiku` is strictly
cheaper. -/
theorem budget_fallback_counterexample :
    ¬ (claude3_haiku.cost_per_token * (estimated_tokens 1 : ℚ) ≤ 0) ∧
    ¬ (gpt35_turbo.cost_per_token * (estimated_tokens 1 : ℚ) ≤ 0) ∧
    modelsFor UserTier.free = [claude3_haiku, gpt35_turbo] ∧
    select_optimal_model 1 UserTier.free AIOperation.summarize (some 0) = gpt35_turbo ∧
    claude3_haiku.cost_per_token < gpt35_turbo.cost_per_token := by
  refine ⟨?_, ?_, rfl, ?_, ?_⟩
  · norm_num [claude3_haiku, estimated_tokens]
  · norm_num [gpt35_turbo, estimated_tokens]
  · norm_num [select_optimal_model, eligible_models, sort_for_operation, modelsFor,
      List.insertionSort, List.orderedInsert, costGE, can_handle, claude3_haiku, gpt35_turbo]
  · norm_num [claude3_haiku, gpt35_turbo]

/-- C1 (amended): if a **non-zero** budget ceiling is supplied and no
descriptor in the tier's list satisfies
`cost_per_token * min(content_length * 2, 500) <= budget`, then
`select_optimal_model` returns the globally cheapest descriptor of the tier's
full unfiltered catalog list (a member of the catalog whose cost is minimal),
rather than failing.  A supplied budget of exactly `0` instead disables the
budget filter entirely (see the zero-budget claim), which is what the
counterexample exploits. -/
theorem budget_unsatisfiable_fallback (len : ℕ) (tier : UserTier) (op : AIOperation) (b : ℚ)
    (hb : b ≠ 0)
    (h : ∀ m ∈ modelsFor tier, ¬ (m.cost_per_token * (estimated_tokens len : ℚ) ≤ b)) :
    select_optimal_model len tier op (some b) = fallback_cheapest tier ∧
    fallback_cheapest tier ∈ modelsFor tier ∧
    ∀ m ∈ modelsFor tier,
      (fallback_cheapest tier).cost_per_token ≤ m.cost_per_token := by
  have hfil : (sort_for_operation op (modelsFor tier)).filter (within_budget len b)
      = [] := by
    rw [List.filter_eq_nil_iff]
    intro a ha
    have := h a (mem_sort_for_operation.mp ha)
    simpa [within_budget] using this
  have hempty : eligible_models len tier op (some b) = [] := by
    unfold eligible_models
    simp only [if_pos hb, hfil, List.filter_nil]
  refine ⟨?_, ?_, ?_⟩
  · unfold select_optimal_model
    rw [hempty]
  · cases tier <;> exact minByCostAux_mem _ _
  · cases tier <;> exact fun m hm => minByCostAux_le _ _ m hm

/-- Witness for the amended C1: a supplied budget of `1e-7` is non-zero and
too small for every free-tier descriptor at `content_length = 1`, so
selection falls back to the cheapest catalog entry. -/
theorem budget_unsatisfiable_fallback_witness :
    (0.0000001 : ℚ) ≠ 0 ∧
    select_optimal_model 1 UserTier.free AIOperation.categorize (some 0.0000001)
      = fallback_cheapest UserTier.free ∧
    fallback_cheapest UserTier.free ∈ modelsFor UserTier.free := by
  have h := budget_unsatisfiable_fallback 1 UserTier.free AIOperation.categorize 0.0000001
    (by norm_num)
    (by
      intro m hm
      fin_cases hm <;> norm_num [claude3_haiku, gpt35_turbo, estimated_tokens])
  exact ⟨by norm_num, h.1, h.2.1⟩

/-- C2: whenever the post-filter candidate set (`eligible_models`) is
non-empty, the selected descriptor belongs to it; for `categorize` and
`generate_tags` its `cost_per_token` is ≤ that of every eligible descriptor,
for `extract_insights` and `summarize` it is ≥; and cost ties within the
eligible set are impossible between distinct descriptors (the catalog's costs
are pairwise distinct per tier), so the stable sort's
break-ties-by-insertion-order policy is satisfied: any eligible descriptor
with the selected cost *is* the selected descriptor. -/
theorem selected_extremal_in_filtered (len : ℕ) (tier : UserTier) (op : AIOperation)
    (budget : Option ℚ) (h : eligible_models len tier op budget ≠ []) :
    select_optimal_model len tier op budget ∈ eligible_models len tier op budget ∧
    ((op = .categorize ∨ op = .generate_tags) →
      ∀ m ∈ eligible_models len tier op budget,
        (select_optimal_model len tier op budget).cost_per_token ≤ m.cost_per_token) ∧
    ((op = .extract_insights ∨ op = .summarize) →
      ∀ m ∈ eligible_models len tier op budget,
        m.cost_per_token ≤ (select_optimal_model len tier op budget).cost_per_token) ∧
    (∀ m ∈ eligible_models len tier op budget,
      m.cost_per_token = (select_optimal_model len tier op budget).cost_per_token →
      m = select_optimal_model len tier op budget) := by
  obtain ⟨x, xs, heq⟩ := List.exists_cons_of_ne_nil h
  have hsel : select_optimal_model len tier op budget = x := by
    unfold select_optimal_model
    rw [heq]
  have hmem : select_optimal_model len tier op budget ∈ eligible_models len tier op budget := by
    rw [hsel, heq]
    exact List.mem_cons_self _ _
  have hasc : (op = .categorize ∨ op = .generate_tags) →
      List.Pairwise costLE (sort_for_operation op (modelsFor tier)) := by
    rintro (rfl | rfl) <;> exact List.sorted_insertionSort costLE (modelsFor tier)
  have hdesc : (op = .extract_insights ∨ op = .summarize) →
      List.Pairwise costGE (sort_for_operation op (modelsFor tier)) := by
    rintro (rfl | rfl) <;> exact List.sorted_insertionSort costGE (modelsFor tier)
  refine ⟨hmem, ?_, ?_, ?_⟩
  · intro hop m hm
    have hpw : List.Pairwise costLE (eligible_models len tier op budget) :=
      eligible_models_pairwise (hasc hop)
    rw [hsel]
    rw [heq] at hpw hm
    exact pairwise_head_rel (fun a => le_refl a.cost_per_token) hpw m hm
  · intro hop m hm
    have hpw : List.Pairwise costGE (eligible_models len tier op budget) :=
      eligible_models_pairwise (hdesc hop)
    rw [hsel]
    rw [heq] at hpw hm
    exact pairwise_head_rel (fun a => le_refl a.cost_per_token) hpw m hm
  · intro m hm hcost
    by_contra hne
    exact (catalog_costs_distinct tier).forall (fun a b hab => Ne.symm hab)
      (mem_of_mem_eligible hm) (mem_of_mem_eligible hmem) hne hcost

/-- Witness for C2: `content_length = 10`, free tier, `categorize`, no budget
— the eligible set is non-empty and the selected descriptor costs no more
than the eligible `gpt-3.5-turbo`. -/
theorem selected_extremal_in_filtered_witness :
    eligible_models 10 UserTier.free AIOperation.categorize none ≠ [] ∧
    (select_optimal_model 10 UserTier.free AIOperation.categorize none).cost_per_token ≤
      gpt35_turbo.cost_per_token := by
  have heval : eligible_models 10 UserTier.free AIOperation.categorize none
      = [claude3_haiku, gpt35_turbo] := by
    norm_num [eligible_models, sort_for_operation, modelsFor, List.insertionSort,
      List.orderedInsert, costLE, can_handle, claude3_haiku, gpt35_turbo]
  have hne : eligible_models 10 UserTier.free AIOperation.categorize none ≠ [] := by
    rw [heval]
    simp
  have h := selected_extremal_in_filtered 10 UserTier.free AIOperation.categorize none hne
  refine ⟨hne, h.2.1 (Or.inl rfl) gpt35_turbo ?_⟩
  rw [heval]
  simp

/-! ## Claims about single-item dispatch -/

theorem ne_empty_of_length_ne_zero {s : String} (h : s.length ≠ 0) : s ≠ "" := by
  intro he
  exact h (he ▸ rfl)

/-- C4 (counterexample): the claim fails on the exception path when the
raised exception's message is empty.  The code sets `error = str(e)` verbatim
(llm_switcher.py line 272), and `str(e)` is the empty string for realistic
exceptions — e.g. `asyncio.TimeoutError`, which aiohttp raises on a request
timeout — so the returned `ProcessingResult` carries `error = ""`, refuting
the claimed "non-empty error message" for that exception (the result still
has `success = false`). -/
theorem exception_empty_message_counterexample :
    failed_exchange (.exc "") ∧
    (process_content (fun _ => true) "hi" AIOperation.categorize UserTier.free none
      (.exc "")).success = false ∧
    (process_content (fun _ => true) "hi" AIOperation.categorize UserTier.free none
      (.exc "")).error = some "" :=
  ⟨trivial, rfl, rfl⟩

/-- C4 (amended): on a non-200 status, a missing or empty `choices` list, or
any exception during the request, `process_content` returns a
`ProcessingResult` with `success = false`, the error field set, and the
selected model's name in `model_used`; it never raises past its boundary (the
embedding is a total function into `ProcessingResult`).  The error message is
non-empty on the non-200 and missing/empty-`choices` paths; on the exception
path it is `str(e)` verbatim, which may be empty. -/
theorem process_content_failure_contract (jsonOk : String → Bool) (content : String)
    (op : AIOperation) (tier : UserTier) (budget : Option ℚ) (outcome : HttpOutcome)
    (hfail : failed_exchange outcome) :
    (process_content jsonOk content op tier budget outcome).success = false ∧
    (process_content jsonOk content op tier budget outcome).model_used =
      some (select_optimal_model content.length tier op budget).name ∧
    ∃ s, (process_content jsonOk content op tier budget outcome).error = some s ∧
      (∀ resp : ApiResponse, outcome = .response resp → s ≠ "") ∧
      (∀ msg : String, outcome = .exc msg → s = msg) := by
  cases outcome with
  | exc msg =>
    refine ⟨rfl, rfl, msg, rfl, ?_, ?_⟩
    · intro resp h
      exact nomatch h
    · intro m h
      cases h
      rfl
  | response resp =>
    by_cases hst : resp.status = 200
    · rcases hfail with h | h | h
      · exact absurd hst h
      · refine ⟨?_, ?_, "No response from model", ?_, fun _ _ => by decide,
          fun m h' => nomatch h'⟩ <;>
          simp [process_content, hst, h]
      · refine ⟨?_, ?_, "No response from model", ?_, fun _ _ => by decide,
          fun m h' => nomatch h'⟩ <;>
          simp [process_content, hst, h]
    · refine ⟨?_, ?_,
        "API request failed with status " ++ toString resp.status ++ ": " ++ resp.text,
        ?_, fun _ _ => ?_, fun m h' => nomatch h'⟩
      · simp [process_content, hst]
      · simp [process_content, hst]
      · simp [process_content, hst]
      · apply ne_empty_of_length_ne_zero
        have h31 : ("API request failed with status ").length = 31 := by decide
        simp only [String.length_append, h31]
        omega

/-- Witness for the amended C4: a simulated HTTP 429 produces a failed
result. -/
theorem process_content_failure_contract_witness :
    failed_exchange (.response ⟨429, "rate limited", none, none⟩) ∧
    (process_content (fun _ => true) "hello" AIOperation.categorize UserTier.free none
      (.response ⟨429, "rate limited", none, none⟩)).success = false := by
  have h := process_content_failure_contract (fun _ => true) "hello" AIOperation.categorize
    UserTier.free none (.response ⟨429, "rate limited", none, none⟩) (Or.inl (by norm_num))
  exact ⟨Or.inl (by norm_num), h.1⟩

/-- C5: for a structured operation (`categorize`, `extract_insights`,
`generate_tags`), an HTTP 200 response with a non-empty `choices` list whose
extracted text fails JSON parsing still yields `success = true`, with the raw
text wrapped as the unstructured payload `{"text": raw}`. -/
theorem parse_failure_degrades (jsonOk : String → Bool) (content : String) (op : AIOperation)
    (tier : UserTier) (budget : Option ℚ) (resp : ApiResponse) (t : String)
    (rest : List String) (hop : is_structured op = true) (hst : resp.status = 200)
    (hch : resp.choices = some (t :: rest)) (hj : jsonOk t = false) :
    (process_content jsonOk content op tier budget (.response resp)).success = true ∧
    (process_content jsonOk content op tier budget (.response resp)).result =
      some (.textWrap t) := by
  constructor <;> simp [process_content, hst, hch, hop, hj]

/-- Witness for C5: a non-JSON body under `categorize` degrades gracefully. -/
theorem parse_failure_degrades_witness :
    (process_content (fun _ => false) "hi" AIOperation.categorize UserTier.free none
      (.response ⟨200, "", some ["not json"], none⟩)).success = true ∧
    (process_content (fun _ => false) "hi" AIOperation.categorize UserTier.free none
      (.response ⟨200, "", some ["not json"], none⟩)).result =
      some (.textWrap "not json") :=
  parse_failure_degrades (fun _ => false) "hi" AIOperation.categorize UserTier.free none
    ⟨200, "", some ["not json"], none⟩ "not json" [] rfl rfl rfl rfl

/-- C10: on a successful dispatch (HTTP 200, non-empty `choices`),
`tokens_used` is the reported `usage.total_tokens` defaulted to `0` when the
field is absent, and `cost` is always `tokens_used * cost_per_token` of the
selected descriptor; in particular a missing usage field gives
`tokens_used = 0` and `cost = 0` with `success = true`. -/
theorem usage_accounting (jsonOk : String → Bool) (content : String) (op : AIOperation)
    (tier : UserTier) (budget : Option ℚ) (resp : ApiResponse) (t : String)
    (rest : List String) (hst : resp.status = 200) (hch : resp.choices = some (t :: rest)) :
    (process_content jsonOk content op tier budget (.response resp)).success = true ∧
    (process_content jsonOk content op tier budget (.response resp)).tokens_used =
      some (resp.usage_total_tokens.getD 0) ∧
    (process_content jsonOk content op tier budget (.response resp)).cost =
      some ((resp.usage_total_tokens.getD 0 : ℚ) *
        (select_optimal_model content.length tier op budget).cost_per_token) ∧
    (resp.usage_total_tokens = none →
      (process_content jsonOk content op tier budget (.response resp)).tokens_used = some 0 ∧
      (process_content jsonOk content op tier budget (.response resp)).cost = some 0) := by
  refine ⟨?_, ?_, ?_, fun hu => ⟨?_, ?_⟩⟩ <;>
    simp [process_content, hst, hch] <;>
    simp [hu]

/-- Witness for C10: a 200 response with one choice and no usage field gives
a successful result with zero tokens and zero cost. -/
theorem usage_accounting_witness :
    (process_content (fun _ => true) "hi" AIOperation.summarize UserTier.free none
      (.response ⟨200, "", some ["fine"], none⟩)).success = true ∧
    (process_content (fun _ => true) "hi" AIOperation.summarize UserTier.free none
      (.response ⟨200, "", some ["fine"], none⟩)).tokens_used = some 0 ∧
    (process_content (fun _ => true) "hi" AIOperation.summarize UserTier.free none
      (.response ⟨200, "", some ["fine"], none⟩)).cost = some 0 := by
  have h := usage_accounting (fun _ => true) "hi" AIOperation.summarize UserTier.free none
    ⟨200, "", some ["fine"], none⟩ "fine" [] rfl rfl
  exact ⟨h.1, (h.2.2.2 rfl).1, (h.2.2.2 rfl).2⟩

/-! ## Helper lemmas about the batch loop -/

theorem process_batch_core_nil (f : ℕ → String → ProcessingResult) (bs idx : ℕ) :
    process_batch_core f bs idx [] = ([], []) := by
  rw [process_batch_core]
  simp

theorem process_batch_core_cons (f : ℕ → String → ProcessingResult) {bs : ℕ} (idx : ℕ)
    {l : List String} (h1 : l ≠ []) (h2 : bs ≠ 0) :
    process_batch_core f bs idx l =
      ((List.enumFrom idx (l.take bs)).map (fun p => f p.1 p.2) ++
         (process_batch_core f bs (idx + bs) (l.drop bs)).1,
       BatchEvent.dispatch (l.take bs) ::
         (if bs < l.length then
            BatchEvent.pause 2 :: (process_batch_core f bs (idx + bs) (l.drop bs)).2
          else (process_batch_core f bs (idx + bs) (l.drop bs)).2)) := by
  rw [process_batch_core]
  simp [h1, h2]

theorem chunkList_nil (bs : ℕ) : chunkList bs [] = [] := by
  rw [chunkList]
  simp

theorem chunkList_cons {bs : ℕ} {l : List String} (h1 : l ≠ []) (h2 : bs ≠ 0) :
    chunkList bs l = l.take bs :: chunkList bs (l.drop bs) := by
  rw [chunkList]
  simp [h1, h2]

theorem process_batch_core_fst_eq (f : ℕ → String → ProcessingResult) {bs : ℕ} (h2 : bs ≠ 0) :
    ∀ (n : ℕ) (l : List String) (idx : ℕ), l.length ≤ n →
      (process_batch_core f bs idx l).1 = (List.enumFrom idx l).map (fun p => f p.1 p.2) := by
  intro n
  induction n with
  | zero =>
    intro l idx hl
    have hnil : l = [] := List.length_eq_zero.mp (Nat.le_zero.mp hl)
    subst hnil
    simp [process_batch_core_nil]
  | succ n ih =>
    intro l idx hl
    rcases eq_or_ne l [] with rfl | hne
    · simp [process_batch_core_nil]
    · rw [process_batch_core_cons f idx hne h2]
      have hdl : (l.drop bs).length ≤ n := by
        have hbp : 1 ≤ bs := Nat.one_le_iff_ne_zero.mpr h2
        have hlp : 1 ≤ l.length := Nat.one_le_iff_ne_zero.mpr
          (fun hz => hne (List.length_eq_zero.mp hz))
        simp only [List.length_drop]
        omega
      show (List.enumFrom idx (l.take bs)).map (fun p => f p.1 p.2) ++
          (process_batch_core f bs (idx + bs) (l.drop bs)).1 = _
      rw [ih (l.drop bs) (idx + bs) hdl]
      by_cases hble : bs ≤ l.length
      · conv_rhs => rw [← List.take_append_drop bs l]
        rw [List.enumFrom_append, List.map_append, List.length_take, min_eq_left hble]
      · push_neg at hble
        rw [List.take_of_length_le (le_of_lt hble), List.drop_eq_nil_of_le (le_of_lt hble)]
        simp

theorem process_batch_core_snd_eq (f : ℕ → String → ProcessingResult) {bs : ℕ} (h2 : bs ≠ 0) :
    ∀ (n : ℕ) (l : List String) (idx : ℕ), l.length ≤ n →
      (process_batch_core f bs idx l).2 =
        List.intersperse (.pause 2) ((chunkList bs l).map .dispatch) := by
  intro n
  induction n with
  | zero =>
    intro l idx hl
    have hnil : l = [] := List.length_eq_zero.mp (Nat.le_zero.mp hl)
    subst hnil
    simp [process_batch_core_nil, chunkList_nil]
  | succ n ih =>
    intro l idx hl
    rcases eq_or_ne l [] with rfl | hne
    · simp [process_batch_core_nil, chunkList_nil]
    · rw [process_batch_core_cons f idx hne h2, chunkList_cons hne h2]
      have hdl : (l.drop bs).length ≤ n := by
        have hbp : 1 ≤ bs := Nat.one_le_iff_ne_zero.mpr h2
        have hlp : 1 ≤ l.length := Nat.one_le_iff_ne_zero.mpr
          (fun hz => hne (List.length_eq_zero.mp hz))
        simp only [List.length_drop]
        omega
      by_cases hlt : bs < l.length
      · have hdne : l.drop bs ≠ [] := by
          intro hz
          rw [List.drop_eq_nil_iff] at hz
          omega
        show BatchEvent.dispatch (l.take bs) ::
            (if bs < l.length then
               BatchEvent.pause 2 :: (process_batch_core f bs (idx + bs) (l.drop bs)).2
             else (process_batch_core f bs (idx + bs) (l.drop bs)).2) = _
        rw [if_pos hlt, ih (l.drop bs) (idx + bs) hdl, chunkList_cons hdne h2]
        simp [List.intersperse]
      · have hdrop : l.drop bs = [] := List.drop_eq_nil_of_le (by omega)
        show BatchEvent.dispatch (l.take bs) ::
            (if bs < l.length then
               BatchEvent.pause 2 :: (process_batch_core f bs (idx + bs) (l.drop bs)).2
             else (process_batch_core f bs (idx + bs) (l.drop bs)).2) = _
        rw [if_neg hlt, hdrop, process_batch_core_nil, chunkList_nil]
        simp

theorem chunkList_flatten {bs : ℕ} (h2 : bs ≠ 0) :
    ∀ (n : ℕ) (l : List String), l.length ≤ n → (chunkList bs l).flatten = l := by
  intro n
  induction n with
  | zero =>
    intro l hl
    have hnil : l = [] := List.length_eq_zero.mp (Nat.le_zero.mp hl)
    subst hnil
    simp [chunkList_nil]
  | succ n ih =>
    intro l hl
    rcases eq_or_ne l [] with rfl | hne
    · simp [chunkList_nil]
    · rw [chunkList_cons hne h2]
      have hdl : (l.drop bs).length ≤ n := by
        have hbp : 1 ≤ bs := Nat.one_le_iff_ne_zero.mpr h2
        have hlp : 1 ≤ l.length := Nat.one_le_iff_ne_zero.mpr
          (fun hz => hne (List.length_eq_zero.mp hz))
        simp only [List.length_drop]
        omega
      rw [List.flatten_cons, ih (l.drop bs) hdl, List.take_append_drop]

theorem chunkList_sizes {bs : ℕ} (h2 : bs ≠ 0) :
    ∀ (n : ℕ) (l : List String), l.length ≤ n →
      ∀ c ∈ chunkList bs l, c ≠ [] ∧ c.length ≤ bs := by
  intro n
  induction n with
  | zero =>
    intro l hl
    have hnil : l = [] := List.length_eq_zero.mp (Nat.le_zero.mp hl)
    subst hnil
    simp [chunkList_nil]
  | succ n ih =>
    intro l hl
    rcases eq_or_ne l [] with rfl | hne
    · simp [chunkList_nil]
    · rw [chunkList_cons hne h2]
      have hdl : (l.drop bs).length ≤ n := by
        have hbp : 1 ≤ bs := Nat.one_le_iff_ne_zero.mpr h2
        have hlp : 1 ≤ l.length := Nat.one_le_iff_ne_zero.mpr
          (fun hz => hne (List.length_eq_zero.mp hz))
        simp only [List.length_drop]
        omega
      intro c hc
      rcases List.mem_cons.mp hc with rfl | hc'
      · constructor
        · intro hz
          have := congrArg List.length hz
          simp only [List.length_take, List.length_nil] at this
          have hbp : 1 ≤ bs := Nat.one_le_iff_ne_zero.mpr h2
          have hlp : 1 ≤ l.length := Nat.one_le_iff_ne_zero.mpr
            (fun hz' => hne (List.length_eq_zero.mp hz'))
          omega
        · simp only [List.length_take]
          omega
      · exact ih (l.drop bs) hdl c hc'

theorem chunkList_full_chunks {bs : ℕ} (h2 : bs ≠ 0) :
    ∀ (n : ℕ) (l : List String), l.length ≤ n →
      ∀ i, i + 1 < (chunkList bs l).length →
        ∃ c, (chunkList bs l)[i]? = some c ∧ c.length = bs := by
  intro n
  induction n with
  | zero =>
    intro l hl
    have hnil : l = [] := List.length_eq_zero.mp (Nat.le_zero.mp hl)
    subst hnil
    simp [chunkList_nil]
  | succ n ih =>
    intro l hl
    rcases eq_or_ne l [] with rfl | hne
    · simp [chunkList_nil]
    · rw [chunkList_cons hne h2]
      have hdl : (l.drop bs).length ≤ n := by
        have hbp : 1 ≤ bs := Nat.one_le_iff_ne_zero.mpr h2
        have hlp : 1 ≤ l.length := Nat.one_le_iff_ne_zero.mpr
          (fun hz => hne (List.length_eq_zero.mp hz))
        simp only [List.length_drop]
        omega
      intro i hi
      cases i with
      | zero =>
        refine ⟨l.take bs, by simp, ?_⟩
        have hrest : chunkList bs (l.drop bs) ≠ [] := by
          intro hz
          rw [hz] at hi
          simp at hi
        have hdne : l.drop bs ≠ [] := by
          intro hz
          rw [hz, chunkList_nil] at hrest
          exact hrest rfl
        have hbl : bs < l.length := by
          by_contra hch
          exact hdne (List.drop_eq_nil_of_le (by omega))
        simp only [List.length_take]
        omega
      | succ i =>
        have hi' : i + 1 < (chunkList bs (l.drop bs)).length := by
          simpa using hi
        obtain ⟨c, hc, hlen⟩ := ih (l.drop bs) hdl i hi'
        exact ⟨c, by simpa using hc, hlen⟩

/-! ## Claims about batch dispatch -/

/-- C3: `process_batch` returns exactly one `ProcessingResult` per input item,
at the corresponding position: the result at position `i` is `process_content`
applied to input `i` when its task completed, and a per-item fault captured by
`gather(..., return_exceptions=True)` becomes
`ProcessingResult(success=False, error=str(e))` at that position, never
aborting or reordering the rest of the batch. -/
theorem batch_preserves_order_and_isolates_faults (jsonOk : String → Bool)
    (contents : List String) (op : AIOperation) (tier : UserTier) (budget : Option ℚ)
    (env : ℕ → TaskOutcome) :
    (process_batch jsonOk contents op tier budget env).length = contents.length ∧
    (∀ (i : ℕ) (c : String), contents[i]? = some c →
      (process_batch jsonOk contents op tier budget env)[i]? =
        some (settle_task jsonOk op tier budget c (env i))) ∧
    (∀ (i : ℕ) (c msg : String), contents[i]? = some c → env i = .raised msg →
      (process_batch jsonOk contents op tier budget env)[i]? =
        some { success := false, error := some msg }) := by
  have hbs : batch_size tier ≠ 0 := by
    cases tier <;> simp [batch_size]
  have hfst : process_batch jsonOk contents op tier budget env =
      (List.enumFrom 0 contents).map
        (fun p => settle_task jsonOk op tier budget p.2 (env p.1)) := by
    unfold process_batch
    exact process_batch_core_fst_eq _ hbs contents.length contents 0 le_rfl
  have hpos : ∀ (i : ℕ) (c : String), contents[i]? = some c →
      (process_batch jsonOk contents op tier budget env)[i]? =
        some (settle_task jsonOk op tier budget c (env i)) := by
    intro i c hc
    rw [hfst, List.getElem?_map, List.getElem?_enumFrom, hc]
    simp
  refine ⟨?_, hpos, ?_⟩
  · rw [hfst]
    simp [List.enumFrom_length]
  · intro i c msg hc hr
    rw [hpos i c hc, hr]
    rfl

/-- Witness for C3: a one-item batch whose task raised `"boom"` yields a
single failed result at position `0`. -/
theorem batch_preserves_order_witness :
    (process_batch (fun _ => true) ["a"] AIOperation.categorize UserTier.free none
      (fun _ => .raised "boom")).length = 1 ∧
    (process_batch (fun _ => true) ["a"] AIOperation.categorize UserTier.free none
      (fun _ => .raised "boom"))[0]? = some { success := false, error := some "boom" } := by
  have h := batch_preserves_order_and_isolates_faults (fun _ => true) ["a"]
    AIOperation.categorize UserTier.free none (fun _ => .raised "boom")
  exact ⟨h.1, h.2.2 0 "a" "boom" rfl rfl⟩

/-- C6: `process_batch` partitions its input into consecutive chunks of size
`batch_size tier` (5 for `free`, 20 otherwise), dispatches them in order with
a `pause 2` event between consecutive chunks (after every chunk except the
last), and in particular for the free tier with 12 items schedules exactly 3
chunks of sizes 5, 5 and 2 with a pause between them.  The conjuncts state:
(1) the event schedule is the dispatches of the consecutive chunks
interspersed with `pause 2`; (2) the chunks concatenate back to the input in
order; (3) every chunk is non-empty of size at most `batch_size tier`;
(4) every chunk before the last has size exactly `batch_size tier`;
(5)-(6) the concrete free-tier 12-item instance. -/
theorem batch_chunking_schedule :
    (∀ (jsonOk : String → Bool) (contents : List String) (op : AIOperation) (tier : UserTier)
        (budget : Option ℚ) (env : ℕ → TaskOutcome),
      process_batch_events jsonOk contents op tier budget env =
        List.intersperse (.pause 2) ((chunkList (batch_size tier) contents).map .dispatch)) ∧
    (∀ (tier : UserTier) (contents : List String),
      (chunkList (batch_size tier) contents).flatten = contents) ∧
    (∀ (tier : UserTier) (contents : List String), ∀ c ∈ chunkList (batch_size tier) contents,
      c ≠ [] ∧ c.length ≤ batch_size tier) ∧
    (∀ (tier : UserTier) (contents : List String) (i : ℕ),
      i + 1 < (chunkList (batch_size tier) contents).length →
      ∃ c, (chunkList (batch_size tier) contents)[i]? = some c ∧
        c.length = batch_size tier) ∧
    (chunkList (batch_size UserTier.free) twelve_items =
      [["t01", "t02", "t03", "t04", "t05"], ["t06", "t07", "t08", "t09", "t10"],
       ["t11", "t12"]]) ∧
    (∀ (jsonOk : String → Bool) (op : AIOperation) (budget : Option ℚ)
        (env : ℕ → TaskOutcome),
      process_batch_events jsonOk twelve_items op UserTier.free budget env =
        [.dispatch ["t01", "t02", "t03", "t04", "t05"], .pause 2,
         .dispatch ["t06", "t07", "t08", "t09", "t10"], .pause 2,
         .dispatch ["t11", "t12"]]) := by
  have hbs : ∀ tier : UserTier, batch_size tier ≠ 0 := by
    intro tier
    cases tier <;> simp [batch_size]
  have hsched : ∀ (jsonOk : String → Bool) (contents : List String) (op : AIOperation)
      (tier : UserTier) (budget : Option ℚ) (env : ℕ → TaskOutcome),
      process_batch_events jsonOk contents op tier budget env =
        List.intersperse (.pause 2) ((chunkList (batch_size tier) contents).map .dispatch) := by
    intro jsonOk contents op tier budget env
    unfold process_batch_events
    exact process_batch_core_snd_eq _ (hbs tier) contents.length contents 0 le_rfl
  have hchunk12 : chunkList (batch_size UserTier.free) twelve_items =
      [["t01", "t02", "t03", "t04", "t05"], ["t06", "t07", "t08", "t09", "t10"],
       ["t11", "t12"]] := by
    have h5 : batch_size UserTier.free = 5 := rfl
    rw [h5]
    rw [chunkList_cons (by decide) (by decide)]
    rw [show twelve_items.take 5 = ["t01", "t02", "t03", "t04", "t05"] from rfl,
        show twelve_items.drop 5
          = ["t06", "t07", "t08", "t09", "t10", "t11", "t12"] from rfl]
    rw [chunkList_cons (by decide) (by decide)]
    rw [show (["t06", "t07", "t08", "t09", "t10", "t11", "t12"] : List String).take 5
          = ["t06", "t07", "t08", "t09", "t10"] from rfl,
        show (["t06", "t07", "t08", "t09", "t10", "t11", "t12"] : List String).drop 5
          = ["t11", "t12"] from rfl]
    rw [chunkList_cons (by decide) (by decide)]
    rw [show (["t11", "t12"] : List String).take 5 = ["t11", "t12"] from rfl,
        show (["t11", "t12"] : List String).drop 5 = ([] : List String) from rfl]
    rw [chunkList_nil]
  refine ⟨hsched, ?_, ?_, ?_, hchunk12, ?_⟩
  · intro tier contents
    exact chunkList_flatten (hbs tier) contents.length contents le_rfl
  · intro tier contents
    exact chunkList_sizes (hbs tier) contents.length contents le_rfl
  · intro tier contents
    exact chunkList_full_chunks (hbs tier) contents.length contents le_rfl
  · intro jsonOk op budget env
    rw [hsched, hchunk12]
    rfl

/-- Witness for C6: in the free-tier 12-item instance, the chunk before the
last has size exactly `batch_size free = 5`, and the first chunk is
non-empty. -/
theorem batch_chunking_schedule_witness :
    (∃ c, (chunkList (batch_size UserTier.free) twelve_items)[0]? = some c ∧
      c.length = batch_size UserTier.free) ∧
    (["t01", "t02", "t03", "t04", "t05"] : List String) ≠ [] := by
  have h := batch_chunking_schedule
  refine ⟨h.2.2.2.1 UserTier.free twelve_items 0 ?_, ?_⟩
  · rw [h.2.2.2.2.1]
    simp
  · refine (h.2.2.1 UserTier.free twelve_items ["t01", "t02", "t03", "t04", "t05"] ?_).1
    rw [h.2.2.2.2.1]
    simp

end LLMSwitcher
